import Mathlib

/-!
Verification development for the strength-calculation document generator.

The Python sources under `src/` are shallowly embedded: strings are lists of
characters, Python floats are modelled by exact rationals, Python dicts by
insertion-ordered association lists, and fallible operations by `Option` /
`Except`.  Each definition is translated from the named source function.
-/

namespace RP

/-- Python string, as a list of characters. -/
abbrev PyStr := List Char

/-- Characters Python's `str.strip` / `\s` treat as whitespace (ASCII subset). -/
def pySpace (c : Char) : Bool :=
  c = ' ' || c = '\t' || c = '\n' || c = '\r' || c = '\x0b' || c = '\x0c'

/-- Python `str.strip()`: drop whitespace from both ends. -/
def pyStrip (s : PyStr) : PyStr :=
  ((s.dropWhile pySpace).reverse.dropWhile pySpace).reverse

/-- Python substring test `p in s` (contiguous substring; empty pattern matches). -/
def containsSub (p s : PyStr) : Bool :=
  (List.range (s.length + 1)).any (fun i => p.isPrefixOf (s.drop i))

/-- Python `str.lower` restricted to the alphabets the program uses
(ASCII letters and Russian Cyrillic, including Ё). -/
def pyLowerChar (c : Char) : Char :=
  let n := c.toNat
  if 65 ≤ n ∧ n ≤ 90 then Char.ofNat (n + 32)
  else if 0x410 ≤ n ∧ n ≤ 0x42F then Char.ofNat (n + 32)
  else if n = 0x401 then Char.ofNat 0x451
  else c

/-- Python `str.upper` restricted to the alphabets the program uses. -/
def pyUpperChar (c : Char) : Char :=
  let n := c.toNat
  if 97 ≤ n ∧ n ≤ 122 then Char.ofNat (n - 32)
  else if 0x430 ≤ n ∧ n ≤ 0x44F then Char.ofNat (n - 32)
  else if n = 0x451 then Char.ofNat 0x401
  else c

/-- `s.lower()` on a whole string. -/
def pyLower (s : PyStr) : PyStr := s.map pyLowerChar

/-- `s.upper()` on a whole string. -/
def pyUpper (s : PyStr) : PyStr := s.map pyUpperChar

/-! ## Catalog Reader (`src/modules/excel_reader.py`) -/

/-- `ExcelReader._determine_category` (excel_reader.py lines 135-159):
case-insensitive keyword match against the product name, first match wins. -/
def determine_category (name : PyStr) : PyStr :=
  let n := pyLower name
  if containsSub "домик".toList n then "Домики".toList
  else if containsSub "комплекс".toList n then "Игровые комплексы".toList
  else if containsSub "песочниц".toList n then "Песочницы".toList
  else if containsSub "мини-беседк".toList n || containsSub "миниbeседк".toList n then
    "Мини-беседки".toList
  else if containsSub "беседк".toList n then "Беседки".toList
  else "Игровые элементы".toList

/-- `ExcelReader._column_letter_to_index` (excel_reader.py lines 97-112):
uppercase and strip, then fold `index = index * 26 + (ord(char) - ord('A') + 1)`,
returning `index - 1`. -/
def column_letter_to_index (letter : PyStr) : Int :=
  let l := pyStrip (pyUpper letter)
  (l.foldl (fun ix c => ix * 26 + ((c.toNat : Int) - 65 + 1)) 0) - 1

/-- A well-formed spreadsheet column string: nonempty, all characters `A`-`Z`. -/
def WellFormedColumn (s : PyStr) : Prop :=
  s ≠ [] ∧ ∀ c ∈ s, 65 ≤ c.toNat ∧ c.toNat ≤ 90

instance (s : PyStr) : Decidable (WellFormedColumn s) := by
  unfold WellFormedColumn; infer_instance

/-- The accumulator value of the letter fold, over ℕ (digits `A`-`Z` ↦ 1..26). -/
def colValNat (s : PyStr) : ℕ :=
  s.foldl (fun ix c => ix * 26 + (c.toNat - 64)) 0

/-- Inverse of bijective base-26 numeration: recover the letter string from
the accumulator value. -/
def colUnrank (n : ℕ) : PyStr :=
  if h : n = 0 then []
  else colUnrank ((n - 1) / 26) ++ [Char.ofNat ((n - 1) % 26 + 65)]
termination_by n
decreasing_by
  exact Nat.lt_of_le_of_lt (Nat.div_le_self _ _) (by omega)

/-- A value held in a spreadsheet cell as pandas hands it to the program:
`none` models Python `None` / NaN (what `_safe_get_value` returns for an
absent or NaN cell), `num` a numeric cell, `str` a text cell. -/
inductive PyVal where
  | none : PyVal
  | num (q : ℚ) : PyVal
  | str (s : PyStr) : PyVal
deriving DecidableEq

/-- Python truthiness of a cell value (`if not article`, `if children_count`). -/
def truthy : PyVal → Bool
  | .none => false
  | .num q => q ≠ 0
  | .str s => s ≠ []

/-- `ExcelReader._safe_get_value` (excel_reader.py lines 114-133): the cell at
the column index, with out-of-range and NaN collapsed to `none`. -/
def safe_get_value (row : List PyVal) (i : ℕ) : PyVal := row.getD i .none

/-- Digit-run reader used by the `float(str)` model: accumulated value,
number of digits consumed, rest of the input. -/
def readDigits : List Char → ℕ → ℕ → ℕ × ℕ × List Char
  | [], v, n => (v, n, [])
  | c :: cs, v, n =>
    if 48 ≤ c.toNat ∧ c.toNat ≤ 57 then readDigits cs (v * 10 + (c.toNat - 48)) (n + 1)
    else (v, n, c :: cs)

/-- Exponent suffix of a Python float literal: `e`/`E`, optional sign, digits;
returns the exponent if the remaining input is exactly that suffix (or empty). -/
def pyFloatExp (s : List Char) : Option ℤ :=
  match s with
  | [] => some 0
  | e :: rest =>
    if e = 'e' ∨ e = 'E' then
      let (sgn, rest1) : ℤ × List Char :=
        match rest with
        | '+' :: r => (1, r)
        | '-' :: r => (-1, r)
        | r => (1, r)
      let (v, n, rest2) := readDigits rest1 0 0
      if n > 0 ∧ rest2 = [] then some (sgn * v) else none
    else none

/-- Model of Python `float(str)` returning the parsed value as an exact
(numerator, denominator) pair: optional sign, digits with optional decimal
point, optional exponent, surrounding whitespace allowed.  (`inf`/`nan`
spellings are not modelled; no claim depends on them.)  `none` models the
`ValueError` the program catches. -/
def pyFloatParts (s : PyStr) : Option (ℤ × ℕ) :=
  let t := pyStrip s
  let (sgn, t1) : ℤ × List Char :=
    match t with
    | '+' :: r => (1, r)
    | '-' :: r => (-1, r)
    | r => (1, r)
  let (ip, ipn, t2) := readDigits t1 0 0
  let (fp, fpn, t3) :=
    match t2 with
    | '.' :: r => readDigits r 0 0
    | r => (0, 0, r)
  let pointed : Bool := match t2 with | '.' :: _ => true | _ => false
  if ipn = 0 ∧ fpn = 0 then Option.none
  else
    let rest := if pointed then t3 else t2
    match pyFloatExp rest with
    | some e =>
      let baseNum : ℤ := sgn * (ip * 10 ^ fpn + fp)
      let baseDen : ℕ := 10 ^ fpn
      if 0 ≤ e then some (baseNum * 10 ^ e.natAbs, baseDen)
      else some (baseNum, baseDen * 10 ^ e.natAbs)
    | Option.none => Option.none

/-- The rational value parsed by the `float(str)` model. -/
def pyFloat (s : PyStr) : Option ℚ :=
  (pyFloatParts s).map (fun p => (p.1 : ℚ) / (p.2 : ℚ))

/-- Python `int(q)` on a float value: truncation toward zero. -/
def pyInt (q : ℚ) : ℤ := q.num / (q.den : ℤ)

/-- The children-count parse of `ExcelReader.get_products`
(excel_reader.py lines 74-78): `int(float(children_count)) if children_count
else 1`, with any `ValueError`/`TypeError` defaulting to 1.  `int(·)` of the
parsed fraction is truncation toward zero, i.e. T-division of the parts. -/
def children_count_of (v : PyVal) : ℤ :=
  if truthy v then
    match v with
    | .num q => pyInt q
    | .str s =>
      match pyFloatParts s with
      | some p => p.1 / (p.2 : ℤ)
      | Option.none => 1
    | .none => 1
  else 1

/-- Python `str(value)` for the cell values the program stringifies.  Numeric
rendering abbreviates Python's float formatting (no claim inspects it). -/
def pyStrOf : PyVal → PyStr
  | .none => "None".toList
  | .str s => s
  | .num q => (toString q.num).toList ++ (if q.den = 1 then [] else '/' :: (toString q.den).toList)

/-- One normalized catalog record (`product` dict built in
excel_reader.py lines 80-87). -/
structure ProductRecord where
  article : PyStr
  name : PyStr
  image_path : PyStr
  children_count : ℤ
  category : PyStr
  row_index : ℕ
deriving DecidableEq

/-- The configured column indices after letter translation
(`get_products`, excel_reader.py lines 54-57). -/
structure ColMap where
  article : ℕ
  name : ℕ
  image_path : ℕ
  children_count : ℕ
deriving DecidableEq

/-- The body of the per-row loop of `ExcelReader.get_products`
(excel_reader.py lines 59-93).  `none` means the row is skipped: either the
article/name emptiness check at line 68 fired, or `_determine_category`
raised `AttributeError` on a non-string name and the `except` at line 91
swallowed the row. -/
def rowToProduct (cm : ColMap) (idx : ℕ) (row : List PyVal) : Option ProductRecord :=
  let article := safe_get_value row cm.article
  let name := safe_get_value row cm.name
  let image := safe_get_value row cm.image_path
  let children := safe_get_value row cm.children_count
  if ¬ truthy article ∨ ¬ truthy name then Option.none
  else
    match name with
    | .str nm =>
      some { article := pyStrip (pyStrOf article)
             name := pyStrip (pyStrOf name)
             image_path := if truthy image then pyStrip (pyStrOf image) else []
             children_count := children_count_of children
             category := determine_category nm
             row_index := idx }
    | _ => Option.none

/-- The row loop of `ExcelReader.get_products` with the running row index. -/
def get_products_aux (cm : ColMap) : ℕ → List (List PyVal) → List ProductRecord
  | _, [] => []
  | i, r :: rs =>
    match rowToProduct cm i r with
    | some p => p :: get_products_aux cm (i + 1) rs
    | Option.none => get_products_aux cm (i + 1) rs

/-- `ExcelReader.get_products` (excel_reader.py lines 41-95) over the loaded
rows. -/
def get_products (cm : ColMap) (rows : List (List PyVal)) : List ProductRecord :=
  get_products_aux cm 0 rows

/-- A cell that is null or empty in the sense of claim C2. -/
def NullOrEmpty (v : PyVal) : Prop := v = .none ∨ v = .str []

instance (v : PyVal) : Decidable (NullOrEmpty v) := by
  unfold NullOrEmpty; infer_instance

/-! ## Passport Locator & Extractor (`src/modules/pdf_parser.py`) -/

/-- A pdfplumber table cell: a string or `None`. -/
abbrev Cell := Option PyStr

/-- A pdfplumber table: rows of cells. -/
abbrev PdfTable := List (List Cell)

/-- One PDF page as the program sees it: its extracted tables and text. -/
structure PdfPage where
  tables : List PdfTable
  text : PyStr
deriving DecidableEq

/-- The extraction result: an insertion-ordered map from parameter name to
(value, unit), modelling the Python dict. -/
abbrev TechData := List (PyStr × (PyStr × PyStr))

/-- Python-dict write `d[k] = v`: update in place if present, else append. -/
def dictPut (d : TechData) (k : PyStr) (v : PyStr × PyStr) : TechData :=
  match d with
  | [] => [(k, v)]
  | (k0, v0) :: rest => if k0 = k then (k0, v) :: rest else (k0, v0) :: dictPut rest k v

/-- `str(cell) if cell else ''` on a table cell (None and `''` are falsy). -/
def cellStr (c : Cell) : PyStr :=
  match c with
  | some s => s
  | Option.none => []

/-- `' '.join(str(cell).upper() for cell in row if cell)`
(pdf_parser.py lines 55 and 117). -/
def headerText (row : List Cell) : PyStr :=
  List.intercalate [' ']
    (row.filterMap (fun c =>
      match c with
      | some s => if s = [] then Option.none else some (pyUpper s)
      | Option.none => Option.none))

/-- `re.sub(r'\([^)]+\)', '', s)`: delete every parenthetical holding at
least one non-`)` character, scanning left to right (fuelled recursion). -/
def removeParensF : ℕ → PyStr → PyStr
  | 0, s => s
  | _ + 1, [] => []
  | fuel + 1, '(' :: rest =>
    let inner := rest.takeWhile (fun c => c ≠ ')')
    let after := rest.dropWhile (fun c => c ≠ ')')
    match inner, after with
    | _ :: _, ')' :: tail => removeParensF fuel tail
    | _, _ => '(' :: removeParensF fuel rest
  | fuel + 1, c :: rest => c :: removeParensF fuel rest

/-- Entry point for the parenthetical removal. -/
def removeParens (s : PyStr) : PyStr := removeParensF s.length s

/-- `re.sub(r'\n.*', '', s)`: keep only the text before the first newline. -/
def beforeNewline (s : PyStr) : PyStr := s.takeWhile (fun c => c ≠ '\n')

/-- The unit derivation of `_parse_technical_table`
(pdf_parser.py lines 146-154): substring-match `мм`, then `кг`, then `м`,
on the lowercased raw parameter cell. -/
def table_unit_of (param_cell : PyStr) : PyStr :=
  let pl := pyLower param_cell
  if containsSub "мм".toList pl then "мм".toList
  else if containsSub "кг".toList pl then "кг".toList
  else if containsSub "м".toList pl ∧ ¬ containsSub "мм".toList pl then "м".toList
  else []

/-- Header detection of `_parse_technical_table` (pdf_parser.py lines 115-119). -/
def tableHasHeader (t : PdfTable) : Bool :=
  match t with
  | [] => false
  | r :: _ =>
    r ≠ [] ∧ (containsSub "ПАРАМЕТР".toList (headerText r)
              ∨ containsSub "НАИМЕНОВАНИЕ".toList (headerText r))

/-- One row of the loop in `_parse_technical_table`
(pdf_parser.py lines 124-161). -/
def parseTableRow (data : TechData) (row : List Cell) : TechData :=
  if row = [] ∨ row.length < 2 then data
  else
    let param_cell := cellStr (row.headD Option.none)
    let value_cell := cellStr (row.getD 1 Option.none)
    let param_clean := pyStrip param_cell
    let value_clean := pyStrip value_cell
    if param_clean = [] ∨ value_clean = [] then data
    else if containsSub "ПАРАМЕТР".toList (pyUpper param_clean)
            ∨ containsSub "ЗНАЧЕНИЕ".toList (pyUpper value_clean) then data
    else
      let param_name := pyStrip (beforeNewline (pyStrip (removeParens param_clean)))
      let unit := table_unit_of param_cell
      let value := pyStrip (value_clean.map (fun c => if c = '\n' then ' ' else c))
      if param_name ≠ [] ∧ value ≠ [] ∧ param_name.length > 2 then
        dictPut data param_name (value, unit)
      else data

/-- `PDFParser._parse_technical_table` (pdf_parser.py lines 107-163). -/
def parse_technical_table (t : PdfTable) : TechData :=
  let start := if tableHasHeader t then 1 else 0
  (t.drop start).foldl parseTableRow []

/-- Table qualification of strategy 1 (pdf_parser.py lines 52-58): more than
one row and a header mentioning both ПАРАМЕТР and ЗНАЧЕНИЕ. -/
def qualifiesStrategy1 (t : PdfTable) : Bool :=
  t.length > 1 ∧ containsSub "ПАРАМЕТР".toList (headerText (t.headD []))
    ∧ containsSub "ЗНАЧЕНИЕ".toList (headerText (t.headD []))

/-- Strategy 1 of `extract_technical_data` (pdf_parser.py lines 46-64): the
first qualifying table, over all pages in order, whose parse is non-empty. -/
def strategy1 (pages : List PdfPage) : TechData :=
  (pages.findSome? (fun page =>
    page.tables.findSome? (fun t =>
      if qualifiesStrategy1 t then
        let r := parse_technical_table t
        if r ≠ [] then some r else Option.none
      else Option.none))).getD []

/-- Split on runs of two or more whitespace characters,
`re.split(r'[\t\s]{2,}', line)` (pdf_parser.py line 184); a single
whitespace character stays inside the current token (fuelled recursion). -/
def splitWs2F : ℕ → PyStr → PyStr → List PyStr
  | 0, cur, s => [cur.reverse ++ s]
  | _ + 1, cur, [] => [cur.reverse]
  | fuel + 1, cur, c :: cs =>
    if pySpace c then
      match cs with
      | c2 :: _ =>
        if pySpace c2 then cur.reverse :: splitWs2F fuel [] (cs.dropWhile pySpace)
        else splitWs2F fuel (c :: cur) cs
      | [] => splitWs2F fuel (c :: cur) cs
    else splitWs2F fuel (c :: cur) cs

/-- Entry point for the whitespace-run split. -/
def splitWs2 (s : PyStr) : List PyStr := splitWs2F s.length [] s

/-- First alternative of `(мм|кг|м)` matching at the head of the input,
returning the rest after the match. -/
def matchUnitToken (s : PyStr) : Option PyStr :=
  if "мм".toList.isPrefixOf s then some (s.drop 2)
  else if "кг".toList.isPrefixOf s then some (s.drop 2)
  else if "м".toList.isPrefixOf s then some (s.drop 1)
  else Option.none

/-- `re.sub(r',\s*(мм|кг|м)\s*', '', s)` (pdf_parser.py line 199), scanning
left to right with greedy whitespace (fuelled recursion). -/
def removeUnitSuffixF : ℕ → PyStr → PyStr
  | 0, s => s
  | _ + 1, [] => []
  | fuel + 1, c :: rest =>
    if c = ',' then
      match matchUnitToken (rest.dropWhile pySpace) with
      | some r2 => removeUnitSuffixF fuel (r2.dropWhile pySpace)
      | Option.none => ',' :: removeUnitSuffixF fuel rest
    else c :: removeUnitSuffixF fuel rest

/-- Entry point for the `, unit` removal. -/
def removeUnitSuffix (s : PyStr) : PyStr := removeUnitSuffixF s.length s

/-- `re.sub(r'[а-яА-Я]+', '', s)` (pdf_parser.py line 202): delete Cyrillic
letters (the ranges the regex names). -/
def removeCyrillic (s : PyStr) : PyStr :=
  s.filter (fun c => ¬ (0x410 ≤ c.toNat ∧ c.toNat ≤ 0x44F))

/-- The unit derivation of `_parse_text_data` (pdf_parser.py lines 191-195):
only `мм` and `кг` are matched; there is no `м` branch. -/
def text_unit_of (param : PyStr) : PyStr :=
  if containsSub "мм".toList (pyLower param) then "мм".toList
  else if containsSub "кг".toList (pyLower param) then "кг".toList
  else []

/-- The dimension keywords of `_parse_text_data` (pdf_parser.py line 181). -/
def textKeywords : List PyStr :=
  ["длина".toList, "ширина".toList, "высота".toList, "масса".toList]

/-- One line of the loop in `_parse_text_data` (pdf_parser.py lines 175-205). -/
def parseTextLine (data : TechData) (line : PyStr) : TechData :=
  if (pyStrip line).length < 10 then data
  else if ¬ textKeywords.any (fun k => containsSub k (pyLower line)) then data
  else
    let parts := splitWs2 line
    if parts.length ≥ 2 then
      let param0 := pyStrip (parts.headD [])
      let value0 := pyStrip (parts.getLastD [])
      let unit := text_unit_of param0
      let param1 := pyStrip (removeUnitSuffix (removeParens param0))
      let value1 := pyStrip (removeCyrillic value0)
      if param1 ≠ [] ∧ value1 ≠ [] then dictPut data param1 (value1, unit) else data
    else data

/-- `PDFParser._parse_text_data` (pdf_parser.py lines 165-207). -/
def parse_text_data (text : PyStr) : TechData :=
  (text.splitOn '\n').foldl parseTextLine []

/-- The heading test of strategy 2 (pdf_parser.py line 75). -/
def hasTechHeading (text : PyStr) : Bool :=
  containsSub "2. Основные технические данные".toList text
    ∨ containsSub "Основные технические данные".toList text

/-- Per-page body of strategy 2 (pdf_parser.py lines 76-87): the first
non-empty parse of a table with more than two rows, else the text parse. -/
def strategy2Page (page : PdfPage) : TechData :=
  match page.tables.findSome? (fun t =>
    if t.length > 2 then
      let r := parse_technical_table t
      if r ≠ [] then some r else Option.none
    else Option.none) with
  | some r => r
  | Option.none => parse_text_data page.text

/-- Strategy 2 of `extract_technical_data` (pdf_parser.py lines 66-90):
probe pages 3, 4, 2 (0-based) in that order; on a page carrying the
technical-data heading take the page result if non-empty. -/
def strategy2 (pages : List PdfPage) : TechData :=
  (([3, 4, 2] : List ℕ).findSome? (fun i =>
    match pages.get? i with
    | some page =>
      if hasTechHeading page.text then
        let r := strategy2Page page
        if r ≠ [] then some r else Option.none
      else Option.none
    | Option.none => Option.none)).getD []

/-- Post-processing of `extract_technical_data` (pdf_parser.py lines 95-103):
delete every entry whose lowercased name contains both `зон` and `приземлен`. -/
def removeLandingZone (d : TechData) : TechData :=
  d.filter (fun kv =>
    ¬ (containsSub "зон".toList (pyLower kv.1) ∧ containsSub "приземлен".toList (pyLower kv.1)))

/-- `PDFParser.extract_technical_data` (pdf_parser.py lines 35-105) on an
opened document: strategy 1, falling back to strategy 2, then the
landing-zone post-filter.  (The `FileNotFoundError` path concerns a missing
file, modelled at the orchestrator boundary.) -/
def extract_technical_data (pages : List PdfPage) : TechData :=
  let td := strategy1 pages
  let td2 := if td = [] then strategy2 pages else td
  removeLandingZone td2

/-- Glob/fnmatch matching with `*` and `?` wildcards (the pattern language
the passport patterns use), fuelled by total input length. -/
def globMatchF : ℕ → PyStr → PyStr → Bool
  | 0, p, s => p = [] ∧ s = []
  | _ + 1, [], s => s = []
  | fuel + 1, '*' :: ps, s =>
    globMatchF fuel ps s || (match s with
      | [] => false
      | _ :: ss => globMatchF fuel ('*' :: ps) ss)
  | fuel + 1, '?' :: ps, s =>
    match s with
    | [] => false
    | _ :: ss => globMatchF fuel ps ss
  | fuel + 1, c :: ps, s =>
    match s with
    | [] => false
    | d :: ss => c = d && globMatchF fuel ps ss

/-- Entry point for glob matching. -/
def globMatch (p s : PyStr) : Bool := globMatchF (p.length + s.length + 1) p s

/-- Python `s.replace(target, repl)`: non-overlapping left-to-right
replacement (fuelled recursion). -/
def replaceAllF (target repl : PyStr) : ℕ → PyStr → PyStr
  | 0, s => s
  | _ + 1, [] => []
  | fuel + 1, c :: rest =>
    if target ≠ [] ∧ target.isPrefixOf (c :: rest) then
      repl ++ replaceAllF target repl fuel ((c :: rest).drop target.length)
    else c :: replaceAllF target repl fuel rest

/-- Entry point for string replacement. -/
def replaceAll (s target repl : PyStr) : PyStr := replaceAllF target repl s.length s

/-- `PDFParser.find_passport` (pdf_parser.py lines 21-33): substitute the
article for `{ART}` in the pattern and return the first glob match over the
directory listing (`glob.glob` enumerates in filesystem order), else `none`. -/
def find_passport (pattern article : PyStr) (listing : List PyStr) : Option PyStr :=
  let search := replaceAll pattern "\x7bART\x7d".toList article
  (listing.filter (fun f => globMatch search f)).head?

/-! ## Document Assembler (`src/modules/docx_generator.py`)

Python float arithmetic is modelled by exact rationals; for the claim's
inputs the double computation and its formatted output coincide with the
exact values. -/

/-- `total_mass = children_count * mass_child`
(docx_generator.py line 110). -/
def total_mass (children_count : ℤ) (mass_child : ℚ) : ℚ :=
  children_count * mass_child

/-- `Fh = 0.2 * total_mass * g` with `g = 10`
(docx_generator.py lines 113-114). -/
def force_h (children_count : ℤ) (mass_child : ℚ) : ℚ :=
  (2 / 10) * total_mass children_count mass_child * 10

/-- `Fz = total_mass * g` with `g = 10` (docx_generator.py line 115). -/
def force_z (children_count : ℤ) (mass_child : ℚ) : ℚ :=
  total_mass children_count mass_child * 10

/-- Round `num / den` (with `den > 0`) to the nearest integer, ties to even
(the rounding of Python's fixed-point formatting), computed on the integer
parts: `fdiv` is floor division, `r` the remainder in `[0, den)`. -/
def roundHalfEvenScaled (num : ℤ) (den : ℤ) : ℤ :=
  let fl := num.fdiv den
  let r := num - fl * den
  if 2 * r < den then fl
  else if den < 2 * r then fl + 1
  else if fl % 2 = 0 then fl else fl + 1

/-- Decimal digits of a natural number, most significant first (fuelled). -/
def natDigitsF : ℕ → ℕ → List Char
  | 0, _ => []
  | fuel + 1, n =>
    if n < 10 then [Char.ofNat (48 + n)]
    else natDigitsF fuel (n / 10) ++ [Char.ofNat (48 + n % 10)]

/-- Decimal rendering of a natural number. -/
def natDigits (n : ℕ) : List Char := natDigitsF (n + 1) n

/-- Python fixed-point formatting `f"{q:.df}"`: round `q * 10^d` half to
even and render with exactly `d` fractional digits. -/
def formatFixed (d : ℕ) (q : ℚ) : PyStr :=
  let scaled := roundHalfEvenScaled (q.num * 10 ^ d) (q.den : ℤ)
  let sign : PyStr := if scaled < 0 then ['-'] else []
  let m := scaled.natAbs
  if d = 0 then sign ++ natDigits m
  else
    let ds := natDigits (m % 10 ^ d)
    sign ++ natDigits (m / 10 ^ d) ++ ['.'] ++ (List.replicate (d - ds.length) '0' ++ ds)

/-- The formatted horizontal-force replacement value `f'Fh = {Fh:.1f} Н'`
(docx_generator.py lines 179-180). -/
def fh_replacement (children_count : ℤ) (mass_child : ℚ) : PyStr :=
  "Fh = ".toList ++ formatFixed 1 (force_h children_count mass_child) ++ " Н".toList

/-- The formatted vertical-force replacement value `f'Fz = {Fz:.0f} Н'`
(docx_generator.py lines 181-182). -/
def fz_replacement (children_count : ℤ) (mass_child : ℚ) : PyStr :=
  "Fz = ".toList ++ formatFixed 0 (force_z children_count mass_child) ++ " Н".toList

/-! ## Run statistics (`src/modules/logger.py`) -/

/-- The `RPLogger.stats` counters (logger.py lines 21-25). -/
structure RunStats where
  total : ℕ
  success : ℕ
  errors : List (PyStr × ℕ)
deriving DecidableEq

/-- The initial counters (logger.py lines 21-25). -/
def initStats : RunStats := ⟨0, 0, []⟩

/-- The counter update of `RPLogger.log_success` (logger.py lines 72-73). -/
def log_success_stats (s : RunStats) : RunStats :=
  { s with total := s.total + 1, success := s.success + 1 }

/-- The error-histogram update of `RPLogger.log_error`
(logger.py lines 90-92): create the bucket at 0 if absent, then add one. -/
def bumpError : List (PyStr × ℕ) → PyStr → List (PyStr × ℕ)
  | [], c => [(c, 1)]
  | (k, n) :: rest, c =>
    if k = c then (k, n + 1) :: rest else (k, n) :: bumpError rest c

/-- The counter update of `RPLogger.log_error` (logger.py lines 89-92). -/
def log_error_stats (s : RunStats) (code : PyStr) : RunStats :=
  { s with total := s.total + 1, errors := bumpError s.errors code }

/-- One recorded per-product outcome. -/
inductive ProductOutcome where
  | success : ProductOutcome
  | failure (code : PyStr) : ProductOutcome
deriving DecidableEq

/-- Record one outcome into the counters. -/
def recordOutcome (s : RunStats) : ProductOutcome → RunStats
  | .success => log_success_stats s
  | .failure code => log_error_stats s code

/-- The counters after a whole run's sequence of outcomes. -/
def runStatsOf (outcomes : List ProductOutcome) : RunStats :=
  outcomes.foldl recordOutcome initStats

/-- Sum of the error histogram. -/
def errorSum (errors : List (PyStr × ℕ)) : ℕ := (errors.map (fun kv => kv.2)).sum

/-! ## Run Orchestrator (`src/main.py`) -/

/-- Terminal outcome of `process_product`. -/
inductive GateResult where
  | ok (path : PyStr) : GateResult
  | err (code : PyStr) : GateResult
deriving DecidableEq

/-- The per-product environment: what the filesystem and the collaborators
return at each gate of `process_product`. -/
structure ProductEnv where
  imageExists : Bool
  passport : Option PyStr
  extraction : Except PyStr TechData
  generation : Except PyStr PyStr

/-- The warning text logged for an empty extraction
(main.py lines 103-105). -/
def emptyDataWarning (article : PyStr) : PyStr :=
  "Не удалось извлечь технические данные из паспорта ".toList ++ article

/-- `StrengthCalculationGenerator.process_product` (main.py lines 66-131):
the gate sequence, returning the terminal outcome and the warnings logged. -/
def process_product (p : ProductRecord) (env : ProductEnv) : GateResult × List PyStr :=
  if p.image_path = [] ∨ ¬ env.imageExists then (.err "ERR_NO_IMAGE".toList, [])
  else
    match env.passport with
    | Option.none => (.err "ERR_NO_PASSPORT".toList, [])
    | some _ =>
      match env.extraction with
      | .error _ => (.err "ERR_PDF_PARSE".toList, [])
      | .ok td =>
        let warns := if td = [] then [emptyDataWarning p.article] else []
        match env.generation with
        | .ok path => (.ok path, warns)
        | .error _ => (.err "ERR_TEMPLATE".toList, warns)

/-- A demonstration passport: a qualifying technical table carrying a
landing-zone row. -/
def demoPdf : List PdfPage :=
  [⟨[[[some "Параметр".toList, some "Значение".toList],
      [some "Длина, мм".toList, some "3000".toList],
      [some "Размер зоны приземления, мм".toList, some "5000".toList]]], []⟩]

/-- Python's lexicographic string comparison `a < b`, by code point. -/
def pyStrLt : PyStr → PyStr → Bool
  | [], [] => false
  | [], _ :: _ => true
  | _ :: _, [] => false
  | a :: as, b :: bs => a.toNat < b.toNat || (a = b && pyStrLt as bs)

/-! ## Theorems -/

/-- C1: the Document Assembler computes `totalMass = childrenCount *
configuredChildMass`, `horizontalForce = 0.2 * totalMass * 10` and
`verticalForce = totalMass * 10` (gravitational constant fixed at 10),
formats the horizontal force to 1 decimal place and the vertical force to 0
decimal places, and for `childrenCount = 10`, `massChild = 53.8` yields
`totalMass = 538.0`, `horizontalForce = 1076.0`, `verticalForce = 5380`. -/
theorem C1_force_computation :
    (∀ (cc : ℤ) (mc : ℚ),
      total_mass cc mc = cc * mc
      ∧ force_h cc mc = 2 / 10 * total_mass cc mc * 10
      ∧ force_z cc mc = total_mass cc mc * 10)
    ∧ total_mass 10 (538 / 10) = 538
    ∧ formatFixed 1 (force_h 10 (538 / 10)) = "1076.0".toList
    ∧ formatFixed 0 (force_z 10 (538 / 10)) = "5380".toList
    ∧ fh_replacement 10 (538 / 10) = "Fh = 1076.0 Н".toList
    ∧ fz_replacement 10 (538 / 10) = "Fz = 5380 Н".toList := by
  have hFh : force_h 10 (538 / 10) = 1076 := by norm_num [force_h, total_mass]
  have hFz : force_z 10 (538 / 10) = 5380 := by norm_num [force_z, total_mass]
  refine ⟨fun cc mc => ⟨rfl, rfl, rfl⟩, by norm_num [total_mass], ?_, ?_, ?_, ?_⟩
  · rw [hFh]; decide
  · rw [hFz]; decide
  · simp only [fh_replacement]; rw [hFh]; decide
  · simp only [fz_replacement]; rw [hFz]; decide

/-- C4 counterexample: the name `домик мини-беседка` contains both the
mini-gazebo and the gazebo substrings, yet its derived category is `Домики`
(Houses), not `Мини-беседки` (MiniGazebos): the house keyword has higher
priority, so the claim's universal statement fails. -/
theorem C4_counterexample :
    containsSub "мини-беседк".toList (pyLower "домик мини-беседка".toList) = true
    ∧ containsSub "беседк".toList (pyLower "домик мини-беседка".toList) = true
    ∧ determine_category "домик мини-беседка".toList = "Домики".toList
    ∧ "Домики".toList ≠ "Мини-беседки".toList := by
  decide

/-- C4 amended: category derivation tests the keywords in the fixed priority
order house, complex, sandbox, mini-gazebo, gazebo, first match wins, with a
default otherwise; a name containing both the mini-gazebo and the gazebo
substrings — and no higher-priority keyword — derives `Мини-беседки`,
not `Беседки`. -/
theorem C4_priority_order :
    (∀ name, containsSub "домик".toList (pyLower name) = true →
      determine_category name = "Домики".toList)
    ∧ (∀ name, containsSub "домик".toList (pyLower name) = false →
      containsSub "комплекс".toList (pyLower name) = true →
      determine_category name = "Игровые комплексы".toList)
    ∧ (∀ name, containsSub "домик".toList (pyLower name) = false →
      containsSub "комплекс".toList (pyLower name) = false →
      containsSub "песочниц".toList (pyLower name) = true →
      determine_category name = "Песочницы".toList)
    ∧ (∀ name, containsSub "домик".toList (pyLower name) = false →
      containsSub "комплекс".toList (pyLower name) = false →
      containsSub "песочниц".toList (pyLower name) = false →
      containsSub "мини-беседк".toList (pyLower name) = true →
      containsSub "беседк".toList (pyLower name) = true →
      determine_category name = "Мини-беседки".toList)
    ∧ (∀ name, containsSub "домик".toList (pyLower name) = false →
      containsSub "комплекс".toList (pyLower name) = false →
      containsSub "песочниц".toList (pyLower name) = false →
      containsSub "мини-беседк".toList (pyLower name) = false →
      containsSub "миниbeседк".toList (pyLower name) = false →
      containsSub "беседк".toList (pyLower name) = true →
      determine_category name = "Беседки".toList)
    ∧ (∀ name, containsSub "домик".toList (pyLower name) = false →
      containsSub "комплекс".toList (pyLower name) = false →
      containsSub "песочниц".toList (pyLower name) = false →
      containsSub "мини-беседк".toList (pyLower name) = false →
      containsSub "миниbeседк".toList (pyLower name) = false →
      containsSub "беседк".toList (pyLower name) = false →
      determine_category name = "Игровые элементы".toList) := by
  refine ⟨?_, ?_, ?_, ?_, ?_, ?_⟩ <;>
    · intro name
      intros
      simp_all [determine_category]

/-- C4 witness: the amended priority rule applied to the concrete name
`мини-беседка`. -/
theorem C4_priority_order_witness :
    determine_category "мини-беседка".toList = "Мини-беседки".toList := by
  exact C4_priority_order.2.2.2.1 "мини-беседка".toList (by decide) (by decide)
    (by decide) (by decide) (by decide)

/-- C8 counterexample: in the free-text line strategy, the line
`Высота изделия, м    2` has parameter text containing the metre marker and
not the millimetre marker, yet the extracted unit is empty, not `м`: the
code's `_parse_text_data` matches only `мм` and `кг`. -/
theorem C8_counterexample :
    parse_text_data "Высота изделия, м    2".toList
      = [("Высота изделия".toList, ("2".toList, []))]
    ∧ containsSub "м".toList (pyLower "Высота изделия, м".toList) = true
    ∧ containsSub "мм".toList (pyLower "Высота изделия, м".toList) = false
    ∧ ([] : PyStr) ≠ "м".toList := by
  decide

/-- C8 amended: the free-text strategy derives the unit by matching only
`мм` and then `кг` against the parameter text; the metre branch of strategy 1
is absent, so a parameter text containing neither marker — even one
containing the metre marker — receives the empty unit. -/
theorem C8_text_unit :
    ∀ p : PyStr,
      (containsSub "мм".toList (pyLower p) = true → text_unit_of p = "мм".toList)
      ∧ (containsSub "мм".toList (pyLower p) = false →
          containsSub "кг".toList (pyLower p) = true → text_unit_of p = "кг".toList)
      ∧ (containsSub "мм".toList (pyLower p) = false →
          containsSub "кг".toList (pyLower p) = false → text_unit_of p = []) := by
  intro p
  exact ⟨fun h1 => by unfold text_unit_of; rw [h1]; simp,
    fun h1 h2 => by unfold text_unit_of; rw [h1, h2]; simp,
    fun h1 h2 => by unfold text_unit_of; rw [h1, h2]; simp⟩

/-- C8 witness: the amended unit rule applied to the concrete parameter text
`Высота, м` (metre marker present, millimetre and kilogram markers absent). -/
theorem C8_text_unit_witness :
    text_unit_of "Высота, м".toList = [] := by
  exact (C8_text_unit "Высота, м".toList).2.2 (by decide) (by decide)

/-- C10 counterexample: a childrenCount cell holding the text `0` is a
present, well-formed value parsing to the number 0, yet the produced record
carries `children_count = 0`, not the default 1: Python truthiness only
rescues a numeric zero, not the string `"0"`. -/
theorem C10_counterexample :
    pyFloat "0".toList = some 0
    ∧ children_count_of (.str "0".toList) = 0
    ∧ get_products ⟨0, 1, 2, 3⟩
        [[.str "A".toList, .str "домик".toList, .none, .str "0".toList]]
      = [⟨"A".toList, "домик".toList, [], 0, "Домики".toList, 0⟩] := by
  refine ⟨?_, by decide, by decide⟩
  have h : pyFloatParts "0".toList = some (0, 1) := by decide
  rw [pyFloat, h]
  norm_num

/-- C10 amended: the default of 1 applies to missing cells, numeric-zero
cells (both falsy) and unparseable text cells, but a text cell `"0"` parses
to 0 and yields a record with `children_count = 0`. -/
theorem C10_children_count_default :
    children_count_of (.num 0) = 1
    ∧ children_count_of .none = 1
    ∧ (∀ s, s ≠ [] → pyFloat s = Option.none → children_count_of (.str s) = 1)
    ∧ children_count_of (.str "0".toList) = 0 := by
  refine ⟨by decide, by decide, ?_, by decide⟩
  intro s hs h
  have hp : pyFloatParts s = Option.none := by
    cases hpp : pyFloatParts s with
    | none => rfl
    | some p => rw [pyFloat, hpp] at h; simp at h
  simp [children_count_of, truthy, hs, hp]

/-- C10 witness: the amended default rule applied to the unparseable cell
text `abc`. -/
theorem C10_children_count_default_witness :
    children_count_of (.str "abc".toList) = 1 := by
  exact C10_children_count_default.2.2.1 "abc".toList (by decide) (by decide)

/-- A null-or-empty cell is falsy. -/
theorem truthy_eq_false_of_nullOrEmpty {v : PyVal} (h : NullOrEmpty v) :
    truthy v = false := by
  rcases h with rfl | rfl <;> rfl

/-- A row whose article or name cell is null or empty produces no record. -/
theorem rowToProduct_eq_none (cm : ColMap) (i : ℕ) (row : List PyVal)
    (h : NullOrEmpty (safe_get_value row cm.article)
         ∨ NullOrEmpty (safe_get_value row cm.name)) :
    rowToProduct cm i row = Option.none := by
  rcases h with h | h <;>
    simp [rowToProduct, truthy_eq_false_of_nullOrEmpty h]

/-- The record count never exceeds the row count. -/
theorem get_products_aux_length_le (cm : ColMap) :
    ∀ (rows : List (List PyVal)) (i : ℕ),
      (get_products_aux cm i rows).length ≤ rows.length := by
  intro rows
  induction rows with
  | nil => intro i; simp [get_products_aux]
  | cons r rs ih =>
    intro i
    simp only [get_products_aux]
    cases h : rowToProduct cm i r with
    | some p => simpa using ih (i + 1)
    | none => exact le_trans (ih (i + 1)) (by simp)

/-- With a null-or-empty article or name row present, the record count drops
strictly below the row count. -/
theorem get_products_aux_length_lt (cm : ColMap) :
    ∀ (rows : List (List PyVal)) (i : ℕ),
      (∃ row ∈ rows, NullOrEmpty (safe_get_value row cm.article)
        ∨ NullOrEmpty (safe_get_value row cm.name)) →
      (get_products_aux cm i rows).length < rows.length := by
  intro rows
  induction rows with
  | nil => intro i h; simp at h
  | cons r rs ih =>
    intro i h
    rcases h with ⟨row, hmem, hbad⟩
    rcases List.mem_cons.mp hmem with rfl | hmem
    · simp only [get_products_aux, rowToProduct_eq_none cm i row hbad]
      exact Nat.lt_succ_of_le (get_products_aux_length_le cm rs (i + 1))
    · simp only [get_products_aux]
      cases hr : rowToProduct cm i r with
      | some p =>
        simpa using Nat.succ_lt_succ (ih (i + 1) ⟨row, hmem, hbad⟩)
      | none =>
        exact Nat.lt_succ_of_lt (ih (i + 1) ⟨row, hmem, hbad⟩)

/-- C2: a row whose article or name cell is null or empty yields no record
and no error, so the record count is at most the row count, and strictly
below it when such a row exists.  (Row-level exceptions are swallowed by
construction: `rowToProduct` is total.) -/
theorem C2_empty_rows_skipped :
    (∀ (cm : ColMap) (i : ℕ) (row : List PyVal),
      NullOrEmpty (safe_get_value row cm.article)
        ∨ NullOrEmpty (safe_get_value row cm.name) →
      rowToProduct cm i row = Option.none)
    ∧ (∀ (cm : ColMap) (rows : List (List PyVal)),
        (get_products cm rows).length ≤ rows.length)
    ∧ (∀ (cm : ColMap) (rows : List (List PyVal)),
        (∃ row ∈ rows, NullOrEmpty (safe_get_value row cm.article)
          ∨ NullOrEmpty (safe_get_value row cm.name)) →
        (get_products cm rows).length < rows.length) := by
  refine ⟨rowToProduct_eq_none, ?_, ?_⟩
  · intro cm rows; exact get_products_aux_length_le cm rows 0
  · intro cm rows h; exact get_products_aux_length_lt cm rows 0 h

/-- C2 witness: a concrete two-row batch in which the second row has an
empty name cell produces exactly one record, strictly fewer than two. -/
theorem C2_empty_rows_skipped_witness :
    NullOrEmpty (safe_get_value [PyVal.str "B".toList, PyVal.str []] 1)
    ∧ (get_products ⟨0, 1, 2, 3⟩
        [[PyVal.str "A".toList, PyVal.str "домик".toList],
         [PyVal.str "B".toList, PyVal.str []]]).length < 2 :=
  ⟨Or.inr rfl,
   C2_empty_rows_skipped.2.2 ⟨0, 1, 2, 3⟩
     [[PyVal.str "A".toList, PyVal.str "домик".toList],
      [PyVal.str "B".toList, PyVal.str []]]
     ⟨[PyVal.str "B".toList, PyVal.str []], by decide, Or.inr (by decide)⟩⟩

/-- C9 helper: bumping an error bucket raises the histogram sum by one. -/
theorem errorSum_bumpError :
    ∀ (errors : List (PyStr × ℕ)) (c : PyStr),
      errorSum (bumpError errors c) = errorSum errors + 1 := by
  intro errors c
  induction errors with
  | nil => simp [bumpError, errorSum]
  | cons kv rest ih =>
    obtain ⟨k, n⟩ := kv
    by_cases h : k = c
    · simp [bumpError, h, errorSum]; omega
    · simp [bumpError, h, errorSum] at ih ⊢; omega

/-- C9 helper: recording one outcome preserves the counter invariant. -/
theorem recordOutcome_invariant (s : RunStats) (o : ProductOutcome)
    (h : s.total = s.success + errorSum s.errors) :
    (recordOutcome s o).total
      = (recordOutcome s o).success + errorSum (recordOutcome s o).errors := by
  cases o with
  | success => simp [recordOutcome, log_success_stats, h]; omega
  | failure code =>
    simp [recordOutcome, log_error_stats, errorSum_bumpError, h]; omega

/-- C9 helper: the invariant is preserved along any outcome sequence. -/
theorem foldl_recordOutcome_invariant :
    ∀ (outcomes : List ProductOutcome) (s : RunStats),
      s.total = s.success + errorSum s.errors →
      (outcomes.foldl recordOutcome s).total
        = (outcomes.foldl recordOutcome s).success
          + errorSum (outcomes.foldl recordOutcome s).errors := by
  intro outcomes
  induction outcomes with
  | nil => intro s h; simpa using h
  | cons o rest ih =>
    intro s h
    simpa using ih (recordOutcome s o) (recordOutcome_invariant s o h)

/-- C9: after any sequence of recorded per-product outcomes, the counters
satisfy `total = success + sum of all error-kind counts`. -/
theorem C9_stats_invariant (outcomes : List ProductOutcome) :
    (runStatsOf outcomes).total
      = (runStatsOf outcomes).success + errorSum (runStatsOf outcomes).errors :=
  foldl_recordOutcome_invariant outcomes initStats rfl

/-- C3: no entry of the extraction result has a name containing both the
zone token and the landing token: the landing-zone parameter is removed in
post-processing, regardless of which strategy produced the raw result. -/
theorem C3_landing_zone_removed (pages : List PdfPage) (k : PyStr)
    (v : PyStr × PyStr) (hmem : (k, v) ∈ extract_technical_data pages) :
    ¬ (containsSub "зон".toList (pyLower k) = true
       ∧ containsSub "приземлен".toList (pyLower k) = true) := by
  simp only [extract_technical_data, removeLandingZone] at hmem
  have hp := (List.mem_filter.mp hmem).2
  simpa using of_decide_eq_true hp

/-- C3 witness: on a passport whose qualifying table carries a landing-zone
row, the surviving entry `Длина, мм` is certified free of the suppressed
token pair (and the extraction output indeed drops the landing-zone row). -/
theorem C3_landing_zone_removed_witness :
    (("Длина, мм".toList, ("3000".toList, "мм".toList)) ∈ extract_technical_data demoPdf)
    ∧ ¬ (containsSub "зон".toList (pyLower "Длина, мм".toList) = true
         ∧ containsSub "приземлен".toList (pyLower "Длина, мм".toList) = true) :=
  ⟨by decide,
   C3_landing_zone_removed demoPdf "Длина, мм".toList ("3000".toList, "мм".toList)
     (by decide)⟩

/-- C6: when every strategy yields nothing, `extract_technical_data` returns
the empty mapping (no exception path), and the orchestrator treats an empty
extraction as a warning: it logs the warning and proceeds to document
generation, never recording `ERR_PDF_PARSE` for emptiness. -/
theorem C6_empty_extraction_tolerated :
    (∀ pages : List PdfPage, strategy1 pages = [] → strategy2 pages = [] →
      extract_technical_data pages = [])
    ∧ (∀ (p : ProductRecord) (env : ProductEnv),
        p.image_path ≠ [] → env.imageExists = true →
        env.passport.isSome = true → env.extraction = .ok [] →
        process_product p env
          = match env.generation with
            | .ok path => (.ok path, [emptyDataWarning p.article])
            | .error _ => (.err "ERR_TEMPLATE".toList, [emptyDataWarning p.article])) := by
  constructor
  · intro pages h1 h2
    simp [extract_technical_data, h1, h2, removeLandingZone]
  · intro p env himg hex hpass hextr
    obtain ⟨pp, hpp⟩ := Option.isSome_iff_exists.mp hpass
    simp only [process_product, hex, hpp, hextr, himg]
    cases env.generation <;> simp

/-- C6 witness: a concrete product and environment in which extraction
returns the empty mapping and generation succeeds: the outcome is success
with exactly the empty-data warning logged. -/
theorem C6_empty_extraction_tolerated_witness :
    extract_technical_data ([] : List PdfPage) = []
    ∧ process_product
        ⟨"GA1".toList, "Домик".toList, "img.png".toList, 4, "Домики".toList, 0⟩
        ⟨true, some "p.pdf".toList, .ok [], .ok "out.docx".toList⟩
      = (.ok "out.docx".toList, [emptyDataWarning "GA1".toList]) :=
  ⟨C6_empty_extraction_tolerated.1 [] rfl rfl,
   C6_empty_extraction_tolerated.2
     ⟨"GA1".toList, "Домик".toList, "img.png".toList, 4, "Домики".toList, 0⟩
     ⟨true, some "p.pdf".toList, .ok [], .ok "out.docx".toList⟩
     (by decide) rfl rfl rfl⟩

/-- C7 helper: the head of a filtered list is absent exactly when no element
satisfies the predicate. -/
theorem filter_head_eq_none_iff {α : Type} (p : α → Bool) (l : List α) :
    (l.filter p).head? = Option.none ↔ ∀ a ∈ l, p a = false := by
  rw [List.head?_eq_none_iff, List.filter_eq_nil_iff]
  simp

/-- C7 helper: the head of a filtered list satisfies the predicate and is
preceded in the original list only by elements failing it. -/
theorem filter_head_eq_some {α : Type} (p : α → Bool) :
    ∀ (l : List α) (f : α), (l.filter p).head? = some f →
      p f = true ∧ ∃ pre post, l = pre ++ f :: post ∧ ∀ g ∈ pre, p g = false := by
  intro l
  induction l with
  | nil => intro f h; simp at h
  | cons a rest ih =>
    intro f h
    by_cases hp : p a
    · rw [List.filter_cons_of_pos hp] at h
      simp only [List.head?_cons, Option.some.injEq] at h
      subst h
      exact ⟨hp, [], rest, rfl, by simp⟩
    · rw [List.filter_cons_of_neg hp] at h
      obtain ⟨hpf, pre, post, heq, hpre⟩ := ih f h
      refine ⟨hpf, a :: pre, post, by simp [heq], ?_⟩
      intro g hg
      rcases List.mem_cons.mp hg with rfl | hg
      · exact Bool.eq_false_iff.mpr hp
      · exact hpre g hg

/-- C7 counterexample: with the directory enumeration
`[B_ART1_p.pdf, A_ART1_p.pdf]`, `find_passport` returns `B_ART1_p.pdf`
although `A_ART1_p.pdf` also matches and is lexicographically smaller:
the code takes `glob.glob(...)[0]`, the first match in enumeration order,
not the first lexicographic match. -/
theorem C7_counterexample :
    find_passport "*\x7bART\x7d*.pdf".toList "ART1".toList
        ["B_ART1_p.pdf".toList, "A_ART1_p.pdf".toList]
      = some "B_ART1_p.pdf".toList
    ∧ globMatch (replaceAll "*\x7bART\x7d*.pdf".toList "\x7bART\x7d".toList "ART1".toList)
        "A_ART1_p.pdf".toList = true
    ∧ pyStrLt "A_ART1_p.pdf".toList "B_ART1_p.pdf".toList = true := by
  decide

/-- C7 amended: `find_passport` substitutes the article into the pattern
placeholder, glob-matches the directory listing, and returns the first match
in the directory's enumeration order — not necessarily the lexicographic
first — or a not-found result (never an error) when there are zero
matches. -/
theorem C7_passport_lookup :
    ∀ (pattern article : PyStr) (listing : List PyStr),
      (find_passport pattern article listing = Option.none ↔
        ∀ f ∈ listing,
          globMatch (replaceAll pattern "\x7bART\x7d".toList article) f = false)
      ∧ (∀ f, find_passport pattern article listing = some f →
          globMatch (replaceAll pattern "\x7bART\x7d".toList article) f = true
          ∧ ∃ pre post, listing = pre ++ f :: post
              ∧ ∀ g ∈ pre,
                  globMatch (replaceAll pattern "\x7bART\x7d".toList article) g = false) := by
  intro pattern article listing
  constructor
  · simpa only [find_passport] using
      filter_head_eq_none_iff
        (fun f => globMatch (replaceAll pattern "\x7bART\x7d".toList article) f) listing
  · intro f h
    exact filter_head_eq_some
      (fun f => globMatch (replaceAll pattern "\x7bART\x7d".toList article) f) listing f h

/-- C7 witness: the amended lookup rule applied to the concrete directory
enumeration `[B_ART1_p.pdf, A_ART1_p.pdf]`. -/
theorem C7_passport_lookup_witness :
    globMatch (replaceAll "*\x7bART\x7d*.pdf".toList "\x7bART\x7d".toList "ART1".toList)
      "B_ART1_p.pdf".toList = true
    ∧ ∃ pre post,
        (["B_ART1_p.pdf".toList, "A_ART1_p.pdf".toList] : List PyStr)
          = pre ++ "B_ART1_p.pdf".toList :: post
        ∧ ∀ g ∈ pre,
            globMatch (replaceAll "*\x7bART\x7d*.pdf".toList "\x7bART\x7d".toList "ART1".toList)
              g = false :=
  (C7_passport_lookup "*\x7bART\x7d*.pdf".toList "ART1".toList
    ["B_ART1_p.pdf".toList, "A_ART1_p.pdf".toList]).2
    "B_ART1_p.pdf".toList (by decide)

/-- C5 helper: a whitespace character has a code point below 65. -/
theorem toNat_lt_of_pySpace (c : Char) (h : pySpace c = true) : c.toNat < 65 := by
  simp [pySpace] at h
  rcases h with ((((rfl | rfl) | rfl) | rfl) | rfl) | rfl <;> decide

/-- C5 helper: mapping a function that fixes every element is the identity. -/
theorem map_eq_self_of_forall {α : Type} {f : α → α} :
    ∀ (l : List α), (∀ a ∈ l, f a = a) → l.map f = l := by
  intro l
  induction l with
  | nil => intro _; rfl
  | cons a t ih =>
    intro h
    simp only [List.map_cons, h a (by simp), ih (fun x hx => h x (by simp [hx]))]

/-- C5 helper: `dropWhile` is the identity when no element satisfies the
predicate. -/
theorem dropWhile_eq_self_of_forall {α : Type} {p : α → Bool} :
    ∀ (l : List α), (∀ a ∈ l, p a = false) → l.dropWhile p = l := by
  intro l
  cases l with
  | nil => intro _; rfl
  | cons a t => intro h; simp [List.dropWhile_cons, h a (by simp)]

/-- C5 helper: uppercasing fixes a well-formed column string. -/
theorem pyUpper_of_wf (s : PyStr) (h : ∀ c ∈ s, 65 ≤ c.toNat ∧ c.toNat ≤ 90) :
    pyUpper s = s := by
  refine map_eq_self_of_forall s (fun c hc => ?_)
  obtain ⟨h1, h2⟩ := h c hc
  unfold pyUpperChar
  rw [if_neg (by omega), if_neg (by omega), if_neg (by omega)]

/-- C5 helper: stripping fixes a well-formed column string. -/
theorem pyStrip_of_wf (s : PyStr) (h : ∀ c ∈ s, 65 ≤ c.toNat ∧ c.toNat ≤ 90) :
    pyStrip s = s := by
  have hns : ∀ c ∈ s, pySpace c = false := by
    intro c hc
    cases hsp : pySpace c with
    | false => rfl
    | true => exact absurd (toNat_lt_of_pySpace c hsp) (by have := (h c hc).1; omega)
  unfold pyStrip
  rw [dropWhile_eq_self_of_forall s hns,
      dropWhile_eq_self_of_forall s.reverse (fun c hc => hns c (List.mem_reverse.mp hc)),
      List.reverse_reverse]

/-- C5 helper: the letter fold in ℤ agrees with its ℕ counterpart on
uppercase letters. -/
theorem colfold_int :
    ∀ (s : PyStr) (acc : ℕ), (∀ c ∈ s, 65 ≤ c.toNat) →
      List.foldl (fun ix c => ix * 26 + ((c.toNat : ℤ) - 65 + 1)) (acc : ℤ) s
        = ((List.foldl (fun ix c => ix * 26 + (c.toNat - 64)) acc s : ℕ) : ℤ) := by
  intro s
  induction s with
  | nil => intro acc _; rfl
  | cons c t ih =>
    intro acc h
    have hc := h c (by simp)
    simp only [List.foldl_cons]
    have e : (acc : ℤ) * 26 + ((c.toNat : ℤ) - 65 + 1)
        = ((acc * 26 + (c.toNat - 64) : ℕ) : ℤ) := by omega
    rw [e]
    exact ih _ (fun x hx => h x (by simp [hx]))

/-- C5 helper: on a well-formed column string the translation is the
bijective base-26 value minus one. -/
theorem column_letter_to_index_of_wf (s : PyStr) (h : WellFormedColumn s) :
    column_letter_to_index s = (colValNat s : ℤ) - 1 := by
  obtain ⟨hne, hall⟩ := h
  simp only [column_letter_to_index, pyUpper_of_wf s hall, pyStrip_of_wf s hall]
  have hf := colfold_int s 0 (fun c hc => (hall c hc).1)
  rw [Nat.cast_zero] at hf
  rw [hf]
  rfl

/-- C5 helper: the fold value of a string extended by one letter. -/
theorem colValNat_append (s : PyStr) (c : Char) :
    colValNat (s ++ [c]) = colValNat s * 26 + (c.toNat - 64) := by
  simp [colValNat, List.foldl_append]

/-- C5 helper: `colUnrank 0` is the empty string. -/
theorem colUnrank_zero : colUnrank 0 = [] := by
  rw [colUnrank]
  simp

/-- C5 helper: `colUnrank` peels one bijective base-26 digit. -/
theorem colUnrank_step (v d : ℕ) (h1 : 1 ≤ d) (h2 : d ≤ 26) :
    colUnrank (v * 26 + d) = colUnrank v ++ [Char.ofNat (d - 1 + 65)] := by
  rw [colUnrank]
  rw [dif_neg (by omega : ¬ v * 26 + d = 0)]
  have e1 : (v * 26 + d - 1) / 26 = v := by omega
  have e2 : (v * 26 + d - 1) % 26 = d - 1 := by omega
  rw [e1, e2]

/-- C5 helper: `colUnrank` inverts the letter fold on well-formed strings. -/
theorem colUnrank_colValNat :
    ∀ (s : PyStr), (∀ c ∈ s, 65 ≤ c.toNat ∧ c.toNat ≤ 90) →
      colUnrank (colValNat s) = s := by
  intro s
  induction s using List.reverseRecOn with
  | nil => intro _; simpa [colValNat] using colUnrank_zero
  | append_singleton t c ih =>
    intro h
    have hc := h c (by simp)
    rw [colValNat_append, colUnrank_step _ _ (by omega) (by omega)]
    have e : c.toNat - 64 - 1 + 65 = c.toNat := by omega
    rw [e, Char.ofNat_toNat, ih (fun x hx => h x (by simp [hx]))]

/-- C5: the column-letter translation follows spreadsheet convention
(`A→0, B→1, Z→25, AA→26, AB→27`) and is injective on well-formed letter
strings. -/
theorem C5_column_letter_index :
    (column_letter_to_index "A".toList = 0
     ∧ column_letter_to_index "B".toList = 1
     ∧ column_letter_to_index "Z".toList = 25
     ∧ column_letter_to_index "AA".toList = 26
     ∧ column_letter_to_index "AB".toList = 27)
    ∧ ∀ s1 s2 : PyStr, WellFormedColumn s1 → WellFormedColumn s2 →
        column_letter_to_index s1 = column_letter_to_index s2 → s1 = s2 := by
  constructor
  · exact ⟨by decide, by decide, by decide, by decide, by decide⟩
  · intro s1 s2 h1 h2 heq
    rw [column_letter_to_index_of_wf s1 h1, column_letter_to_index_of_wf s2 h2] at heq
    have hv : colValNat s1 = colValNat s2 := by omega
    rw [← colUnrank_colValNat s1 h1.2, ← colUnrank_colValNat s2 h2.2, hv]

/-- C5 witness: injectivity applied at the concrete well-formed string `AB`
(whose index is 27). -/
theorem C5_column_letter_index_witness :
    WellFormedColumn "AB".toList ∧ ("AB".toList : PyStr) = "AB".toList :=
  ⟨by decide,
   C5_column_letter_index.2 "AB".toList "AB".toList (by decide) (by decide) rfl⟩

end RP
